import Mathlib

/-!
Shallow embedding of the hal-simplicity core (BlockstreamResearch/hal-simplicity)
and verification of its natural-language specification.

Modelling conventions:
* Rust byte sequences (`Vec<u8>`, scripts, hashes, CMRs) are `List Nat`
  (each element a byte value); machine-word buffers in the jet tracer are
  `List (Fin 256)` per word since they come from `u8` arrays.
* Rust strings are `List Char` (all relevant strings are ASCII, where Rust's
  byte length equals the character count).
* External library types (transactions, control blocks, secp256k1 keys and
  signatures, redeem nodes) are type parameters, and external library
  operations (extraction, sighash digests, key derivation, signing,
  commitment validation, BTC-amount parsing, base64 decoding) are function
  parameters: the repository treats them as black boxes and so do we.
* Fallible Rust functions returning `Result` become `Except`; `Option`
  stays `Option`.
-/

namespace HalSimplicity

/-- Byte sequences (`Vec<u8>` etc.). -/
abbrev Bytes := List Nat

deriving instance DecidableEq for Except

/-! ### Hex decoding (models `elements::hex::FromHex` for `Vec<u8>`) -/

/-- Value of a single hex digit, accepting both cases
(as rust-bitcoin's hex parser does). -/
def hexDigitVal (c : Char) : Option Nat :=
  if '0' ≤ c ∧ c ≤ '9' then some (c.toNat - '0'.toNat)
  else if 'a' ≤ c ∧ c ≤ 'f' then some (c.toNat - 'a'.toNat + 10)
  else if 'A' ≤ c ∧ c ≤ 'F' then some (c.toNat - 'A'.toNat + 10)
  else none

/-- Hex-decode a string into bytes; fails on odd length or non-hex characters
(models `Vec::from_hex`). -/
def hexDecode : List Char → Option Bytes
  | [] => some []
  | [_] => none
  | c1 :: c2 :: rest =>
    match hexDigitVal c1, hexDigitVal c2, hexDecode rest with
    | some hi, some lo, some bs => some ((16 * hi + lo) :: bs)
    | _, _, _ => none

/-! ### UTXO codec: `parse_elements_utxo` (src/actions/simplicity/mod.rs) -/

/-- `elements::confidential::Asset`, restricted to the two constructors the
parser produces. -/
inductive Asset where
  | explicit (id : Bytes)
  | confidential (comm : Bytes)
  deriving DecidableEq

/-- `elements::confidential::Value`, restricted to the two constructors the
parser produces. -/
inductive CValue where
  | explicit (sats : Nat)
  | confidential (comm : Bytes)
  deriving DecidableEq

/-- `simplicity::jet::elements::ElementsUtxo`. -/
structure ElementsUtxo where
  script_pubkey : Bytes
  asset : Asset
  value : CValue
  deriving DecidableEq

/-- `ParseElementsUtxoError` (payloads of the wrapped library errors omitted). -/
inductive ParseElementsUtxoError where
  | invalidFormat
  | scriptPubKeyParsing
  | assetHexParsing
  | assetCommitmentHexParsing
  | assetCommitmentDecoding
  | valueCommitmentHexParsing
  | valueCommitmentDecoding
  deriving DecidableEq

/-- Rust `str::split(':')`: split on every colon, keeping empty pieces. -/
def splitOnColon : List Char → List (List Char)
  | [] => [[]]
  | c :: rest =>
    if c = ':' then [] :: splitOnColon rest
    else
      match splitOnColon rest with
      | [] => [[c]]
      | h :: t => (c :: h) :: t

/-- The asset field of `parse_elements_utxo`: 64 hex characters parse as an
explicit asset id, anything else as a confidential commitment validated by
the library predicate `validAsset` (`Asset::from_commitment`). -/
def parseAssetPart (validAsset : Bytes → Bool) (p : List Char) :
    Except ParseElementsUtxoError Asset :=
  if p.length = 64 then
    match hexDecode p with
    | some bs => .ok (.explicit bs)
    | none => .error .assetHexParsing
  else
    match hexDecode p with
    | some bs => if validAsset bs then .ok (.confidential bs) else .error .assetCommitmentDecoding
    | none => .error .assetCommitmentHexParsing

/-- The value field of `parse_elements_utxo`: decimal BTC parse
(`Amount::from_str_in`, the library parameter `parseBtcAmount`, yielding
satoshis) is attempted first; only on its failure is the field hex-decoded
and validated as a confidential commitment (`Value::from_commitment`,
the library parameter `validValue`). -/
def parseValuePart (validValue : Bytes → Bool) (parseBtcAmount : List Char → Option Nat)
    (p : List Char) : Except ParseElementsUtxoError CValue :=
  match parseBtcAmount p with
  | some sats => .ok (.explicit sats)
  | none =>
    match hexDecode p with
    | some bs => if validValue bs then .ok (.confidential bs) else .error .valueCommitmentDecoding
    | none => .error .valueCommitmentHexParsing

/-- `parse_elements_utxo`: split on `:` into exactly 3 parts
(scriptPubKey hex, asset, value) and parse each part. -/
def parseElementsUtxo (validAsset validValue : Bytes → Bool)
    (parseBtcAmount : List Char → Option Nat) (s : List Char) :
    Except ParseElementsUtxoError ElementsUtxo :=
  match splitOnColon s with
  | [p0, p1, p2] =>
    match hexDecode p0 with
    | none => .error .scriptPubKeyParsing
    | some spk => do
      let a ← parseAssetPart validAsset p1
      let v ← parseValuePart validValue parseBtcAmount p2
      .ok ⟨spk, a, v⟩
  | _ => .error .invalidFormat

/-! ### PSET model and `execution_environment` (src/actions/simplicity/pset/mod.rs)

`Tx` is the external transaction type (`elements::Transaction`) and `CB` the
external control-block type (`elements::taproot::ControlBlock`); the
repository never inspects either, it only moves them around. -/

/-- An `elements::TxOut` as used from a PSET input's `witness_utxo` field
(only the three fields the repository reads). -/
structure TxOut where
  script_pubkey : Bytes
  asset : Asset
  value : CValue
  deriving DecidableEq

/-- A PSET input, restricted to the fields the repository reads or writes.
`tap_scripts` is a `BTreeMap<ControlBlock, (Script, LeafVersion)>` in the
source; we model it by its canonically ordered (ascending-key) iteration
sequence of `(control block, leaf script, leaf version)` entries. -/
structure PsetInput (CB : Type) where
  tap_scripts : List (CB × Bytes × Nat)
  witness_utxo : Option TxOut
  final_script_witness : Option (List Bytes) := none
  deriving DecidableEq

/-- A `PartiallySignedTransaction`, restricted to what the repository uses.
`extract_tx` models the external library's `PartiallySignedTransaction::extract_tx`
call on this PSET (`none` = the library fails because mandatory fields are
missing); it is data here because the extraction algorithm is out of scope. -/
structure Pset (Tx CB : Type) where
  inputs : List (PsetInput CB)
  extract_tx : Option Tx
  deriving DecidableEq

/-- `PsetError` (src/actions/simplicity/pset/mod.rs). Library error payloads
(`GenesisHashParse`, `PsetExtract`) are omitted; `MissingSimplicityLeaf`
carries the CMR bytes rather than their string rendering. -/
inductive PsetError where
  | inputIndexOutOfRange (index total : Nat)
  | genesisHashParse
  | missingSimplicityLeaf (cmr : Bytes)
  | psetExtract
  | missingWitnessUtxo (input : Nat)
  deriving DecidableEq

/-- The value of `simplicity::leaf_version()`, the fixed Simplicity Taproot
leaf-version constant (0xbe in rust-simplicity; the claims only use it
symbolically). -/
def simplicityLeafVersion : Nat := 0xbe

/-- `elements::BlockHash` `FromStr`: 64 hex characters; the displayed hex is
byte-reversed relative to the array given to `from_byte_array`. -/
def parseBlockHash (s : List Char) : Option Bytes :=
  match hexDecode s with
  | some bs => if bs.length = 32 then some bs.reverse else none
  | none => none

/-- The default genesis-hash byte array of `execution_environment`
("copied out of simplicity-webide source"). -/
def defaultGenesisHash : Bytes :=
  [0xc1, 0xb1, 0x6a, 0xe2, 0x4f, 0x24, 0x23, 0xae, 0xa2, 0xea, 0x34, 0x55, 0x22, 0x92,
   0x79, 0x3b, 0x5b, 0x5e, 0x82, 0x99, 0x9a, 0x1e, 0xed, 0x81, 0xd5, 0x6a, 0xee, 0x52,
   0x8e, 0xda, 0x71, 0xa7]

/-- Genesis-hash resolution step of `execution_environment`: parse the
supplied string, or fall back to `defaultGenesisHash`. -/
def resolveGenesis (genesis_hash : Option (List Char)) : Except PsetError Bytes :=
  match genesis_hash with
  | some s =>
    match parseBlockHash s with
    | some h => .ok h
    | none => .error .genesisHashParse
  | none => .ok defaultGenesisHash

/-- The`for (cb, script_ver) in &input.tap_scripts` loop of
`execution_environment`: each matching entry (leaf version = Simplicity,
leaf script = CMR bytes) overwrites `control_block_leaf`. -/
def findSimplicityLeaf {CB : Type} (scripts : List (CB × Bytes × Nat)) (cmr : Bytes) :
    Option (CB × Bytes) :=
  scripts.foldl
    (fun acc e => if e.2.2 = simplicityLeafVersion ∧ e.2.1 = cmr then some (e.1, e.2.1) else acc)
    none

/-- `simplicity::jet::elements::ElementsEnv`, the per-call execution
environment. The `annex` field is the always-`None` placeholder passed in
the source. -/
structure ElementsEnv (Tx CB : Type) where
  tx : Tx
  input_utxos : List ElementsUtxo
  input_index : Nat
  cmr : Bytes
  control_block : CB
  annex : Option Bytes
  genesis_hash : Bytes
  deriving DecidableEq

/-- Conversion of a PSET input's `witness_utxo` to an `ElementsUtxo`
(the `Ok(ElementsUtxo { .. })` arm of `execution_environment`). -/
def utxoOfTxOut (t : TxOut) : ElementsUtxo :=
  ⟨t.script_pubkey, t.asset, t.value⟩

/-- The `.iter().enumerate().map(..).collect::<Result<_, _>>()` pass of
`execution_environment` over all PSET inputs: the first input (at absolute
index `n` onward) without a populated `witness_utxo` fails the whole build. -/
def collectInputUtxos {CB : Type} : Nat → List (PsetInput CB) →
    Except PsetError (List ElementsUtxo)
  | _, [] => .ok []
  | n, inp :: rest =>
    match inp.witness_utxo with
    | some u =>
      match collectInputUtxos (n + 1) rest with
      | .ok tl => .ok (utxoOfTxOut u :: tl)
      | .error e => .error e
    | none => .error (.missingWitnessUtxo n)

/-- `execution_environment` (src/actions/simplicity/pset/mod.rs): bounds-check
the input index, resolve the genesis hash, locate the Simplicity leaf for the
CMR, extract the transaction, convert every input's witness UTXO, and
assemble the environment. -/
def executionEnvironment {Tx CB : Type} (pset : Pset Tx CB) (input_idx : Nat)
    (cmr : Bytes) (genesis_hash : Option (List Char)) :
    Except PsetError (ElementsEnv Tx CB × CB × Bytes) :=
  match pset.inputs[input_idx]? with
  | none => .error (.inputIndexOutOfRange input_idx pset.inputs.length)
  | some input => do
    let gh ← resolveGenesis genesis_hash
    match findSimplicityLeaf input.tap_scripts cmr with
    | none => .error (.missingSimplicityLeaf cmr)
    | some (control_block, tap_leaf) =>
      match pset.extract_tx with
      | none => .error .psetExtract
      | some tx => do
        let input_utxos ← collectInputUtxos 0 pset.inputs
        .ok (⟨tx, input_utxos, input_idx, cmr, control_block, none, gh⟩, control_block, tap_leaf)

/-! ### `pset_finalize` (src/actions/simplicity/pset/finalize.rs)

`R` is the external redeem-node type (`Arc<RedeemNode<Elements>>`); pruning
(`RedeemNode::prune` followed by `to_vec_with_witness`, which yields the
serialized `(program, witness)` byte pair) and control-block serialization
are external library operations, passed as `prune` and `cbSerialize`. -/

/-- `hal_simplicity::Program`: commit-time data (of which the repository
only reads the CMR) plus an optional redeem-time program. -/
structure ProgramHandle (R : Type) where
  cmr : Bytes
  redeem : Option R

/-- `PsetFinalizeError`. The string-parsing variants (`PsetDecode`,
`InputIndexParse`, `ProgramParse`) precede the modelled stage and are
omitted; the `ProgramPrune` payload is dropped. -/
inductive PsetFinalizeError where
  | sharedError (e : PsetError)
  | noRedeemNode
  | programPrune
  deriving DecidableEq

/-- Write `final_script_witness` on input `i`
(`pset.inputs_mut()[input_idx].final_script_witness = Some(..)`). -/
def Pset.setFinalWitness {Tx CB : Type} (pset : Pset Tx CB) (i : Nat)
    (w : List Bytes) : Pset Tx CB :=
  { pset with
    inputs := pset.inputs.modify (fun inp => { inp with final_script_witness := some w }) i }

/-- `pset_finalize` after its string-parsing preamble: build the execution
environment, demand a redeem node, prune it against the environment, and
write the 4-element witness stack
`[witness, program, tap_leaf, control_block.serialize()]` into the target
input. The PSET state is returned alongside the result (the source mutates
a local copy and serializes it only on success, so on error the caller's
PSET is untouched). -/
def psetFinalize {Tx CB R : Type}
    (prune : R → ElementsEnv Tx CB → Except Unit (Bytes × Bytes))
    (cbSerialize : CB → Bytes)
    (pset : Pset Tx CB) (input_idx : Nat) (program : ProgramHandle R)
    (genesis_hash : Option (List Char)) :
    Except PsetFinalizeError (List String) × Pset Tx CB :=
  match executionEnvironment pset input_idx program.cmr genesis_hash with
  | .error e => (.error (.sharedError e), pset)
  | .ok (tx_env, control_block, tap_leaf) =>
    match program.redeem with
    | none => (.error .noRedeemNode, pset)
    | some redeem_node =>
      match prune redeem_node tx_env with
      | .error _ => (.error .programPrune, pset)
      | .ok (prog, wit) =>
        (.ok ["final_script_witness"],
         pset.setFinalWitness input_idx [wit, prog, tap_leaf, cbSerialize control_block])

/-! ### Jet tracer: `JetTracker::track_jet_call` (src/actions/simplicity/pset/run.rs)

A machine word (`simplicity::ffi::ffi::UWORD`) enters the tracer only through
`word.to_be_bytes()`, so we model each word directly as its big-endian byte
list (`List (Fin 256)`). -/

/-- One lowercase hex digit. -/
def hexDigitChar (n : Nat) : Char :=
  if n < 10 then Char.ofNat ('0'.toNat + n) else Char.ofNat ('a'.toNat + n - 10)

/-- Rust `format!("{:02x}", byte)` for a `u8`: exactly two lowercase hex
characters. -/
def byteToHex (b : Fin 256) : List Char :=
  [hexDigitChar (b.val / 16), hexDigitChar (b.val % 16)]

/-- The tracer's buffer-encoding loop: iterate the words in reverse order and
each word's bytes in big-endian order, emitting two hex characters per byte. -/
def wordsToHex (buf : List (List (Fin 256))) : List Char :=
  (buf.reverse.map (fun w => (w.map byteToHex).flatten)).flatten

/-- `JetCall` (the trace record; `equality_check` is the spec's
`equality_operands`). -/
structure JetCall where
  jet : List Char
  source_ty : List Char
  target_ty : List Char
  success : Bool
  input_hex : List Char
  output_hex : List Char
  equality_check : Option (List Char × List Char)
  deriving DecidableEq

/-- The record `JetTracker::track_jet_call` pushes for one jet call: hex-encode
both buffers, and for a jet whose name starts with `eq_` — except the
unsupported `eq_1` and `eq_2` — split the input hex at half its length into
the two compared operands. -/
def mkJetCall (name source_ty target_ty : List Char)
    (input_buffer output_buffer : List (List (Fin 256))) (success : Bool) : JetCall :=
  let input_hex := wordsToHex input_buffer
  let output_hex := wordsToHex output_buffer
  let equality_check :=
    if name = "eq_1".data then none
    else if name = "eq_2".data then none
    else if "eq_".data.isPrefixOf name then
      some (input_hex.take (input_hex.length / 2), input_hex.drop (input_hex.length / 2))
    else none
  ⟨name, source_ty, target_ty, success, input_hex, output_hex, equality_check⟩

/-! ### `hex_or_base64` (hal-simplicity-daemon/src/utils/mod.rs)

Its doc comment: "An even-length string with exclusively lowercase hex
characters will be parsed as hex; failing that, it will be parsed as base64."
Base64 decoding (`BASE64_STANDARD.decode`) is an external library operation,
passed as `base64Decode`. -/

/-- Rust `u8::is_ascii_hexdigit`. -/
def isAsciiHexDigit (c : Char) : Bool :=
  decide (('0' ≤ c ∧ c ≤ '9') ∨ ('a' ≤ c ∧ c ≤ 'f') ∨ ('A' ≤ c ∧ c ≤ 'F'))

/-- Rust `u8::is_ascii_lowercase`: ASCII `a`..=`z` only — digits are *not*
lowercase. -/
def isAsciiLowercase (c : Char) : Bool :=
  decide ('a' ≤ c ∧ c ≤ 'z')

/-- The hex-branch guard of `hex_or_base64`:
`s.len() % 2 == 0 && s.bytes().all(|b| b.is_ascii_hexdigit() && b.is_ascii_lowercase())`. -/
def hexCandidate (s : List Char) : Bool :=
  s.length % 2 == 0 && s.all (fun c => isAsciiHexDigit c && isAsciiLowercase c)

/-- `hex_or_base64`: hex-decode when `hexCandidate` holds (the source unwraps
this decode, the charset having been checked), otherwise base64-decode. -/
def hexOrBase64 (base64Decode : List Char → Except Unit Bytes) (s : List Char) :
    Except Unit Bytes :=
  if hexCandidate s then
    match hexDecode s with
    | some bs => .ok bs
    | none => .error ()
  else base64Decode s

/-! ### Genesis-hash defaults across entry points (claim C6) -/

/-- The default genesis-hash byte array of `simplicity_sighash`
(src/actions/simplicity/sighash.rs): the same "copied out of
simplicity-webide source" constant, although its comment reads
"Default to Bitcoin blockhash". -/
def sighashDefaultGenesisHash : Bytes :=
  [0xc1, 0xb1, 0x6a, 0xe2, 0x4f, 0x24, 0x23, 0xae, 0xa2, 0xea, 0x34, 0x55, 0x22, 0x92,
   0x79, 0x3b, 0x5b, 0x5e, 0x82, 0x99, 0x9a, 0x1e, 0xed, 0x81, 0xd5, 0x6a, 0xee, 0x52,
   0x8e, 0xda, 0x71, 0xa7]

/-- The Bitcoin mainnet genesis hash exactly as the spec lists it
(spec §6, "One code path instead defaults to the Bitcoin mainnet genesis
hash ..."). Stated from the spec's words, for comparison with the constants
found in the source. -/
def specBitcoinMainnetGenesis : Bytes :=
  [0x00, 0x00, 0x00, 0x00, 0x00, 0x19, 0xd6, 0x68, 0x9c, 0x08, 0x5a, 0xe1, 0x65, 0x83,
   0x1e, 0x93, 0x4f, 0xf7, 0x63, 0xae, 0x46, 0xa2, 0xa6, 0xc1, 0x72, 0xb3, 0xf1, 0xb6,
   0x0a, 0x8c, 0xe2, 0x6f]

/-! ### `simplicity_sighash` (src/actions/simplicity/sighash.rs)

The function is modelled after its string-parsing preamble: `SK`, `PK`, `Sig`
are the external secp256k1 secret-key, x-only public-key and Schnorr-signature
types, and key derivation (`Keypair::from_secret_key` + `x_only_public_key`),
signing, verification and the digest (`c_tx_env().sighash_all()`) are external
operations passed as functions. `pset` is the result of trying to parse the
transaction argument as a PSET and `rawTx` the result of the raw-hex fallback
decode. -/

/-- `SimplicitySighashError`, restricted to the variants reachable after
string parsing; library error payloads are omitted. -/
inductive SighashError (PK : Type) where
  | psetExtraction
  | transactionDecoding
  | inputIndexOutOfRange (index n_inputs : Nat)
  | controlBlockNotFound (cmr : Bytes)
  | controlBlockRequired
  | witnessUtxoMissing (input : Nat)
  | inputUtxosRequired
  | inputUtxoCountMismatch (expected actual : Nat)
  | genesisHashParsing
  | publicKeyMismatch (derived provided : PK)
  | signatureWithoutPublicKey
  | inputUtxoParsing (e : ParseElementsUtxoError)
  deriving DecidableEq

/-- `SighashInfo`. -/
structure SighashInfo (Sig : Type) where
  sighash : Bytes
  signature : Option Sig
  valid_signature : Option Bool
  deriving DecidableEq

/-- Transaction resolution of `simplicity_sighash`: extract from the PSET when
the argument parsed as one (failure = `PsetExtraction`), otherwise fall back
to the raw hex decode (failure = the hex/decode errors, collapsed into
`transactionDecoding`). -/
def resolveTx {Tx CB PK : Type} (pset : Option (Pset Tx CB)) (rawTx : Option Tx) :
    Except (SighashError PK) Tx :=
  match pset with
  | some p =>
    match p.extract_tx with
    | some tx => .ok tx
    | none => .error .psetExtraction
  | none =>
    match rawTx with
    | some tx => .ok tx
    | none => .error .transactionDecoding

/-- The `for (cb, script_ver) in &input.tap_scripts` loop of
`simplicity_sighash`, which (unlike `execution_environment`) keeps only the
control block of each matching entry. -/
def findControlBlockOnly {CB : Type} (scripts : List (CB × Bytes × Nat)) (cmr : Bytes) :
    Option CB :=
  scripts.foldl
    (fun acc e => if e.2.2 = simplicityLeafVersion ∧ e.2.1 = cmr then some e.1 else acc)
    none

/-- Control-block resolution of `simplicity_sighash`: an explicitly supplied
control block wins; otherwise the PSET's target input is scanned; with
neither, `ControlBlockRequired`. -/
def resolveControlBlock {Tx CB PK : Type} (control_block : Option CB)
    (pset : Option (Pset Tx CB)) (input_idx : Nat) (cmr : Bytes) :
    Except (SighashError PK) CB :=
  match control_block with
  | some cb => .ok cb
  | none =>
    match pset with
    | some p =>
      match p.inputs[input_idx]? with
      | none => .error (.inputIndexOutOfRange input_idx p.inputs.length)
      | some input =>
        match findControlBlockOnly input.tap_scripts cmr with
        | some cb => .ok cb
        | none => .error (.controlBlockNotFound cmr)
    | none => .error .controlBlockRequired

/-- The `input_utxos.iter().map(parse_elements_utxo).collect()` pass over
explicitly supplied UTXO descriptor strings. -/
def parseUtxoList {PK : Type} (validAsset validValue : Bytes → Bool)
    (parseBtcAmount : List Char → Option Nat) :
    List (List Char) → Except (SighashError PK) (List ElementsUtxo)
  | [] => .ok []
  | s :: rest =>
    match parseElementsUtxo validAsset validValue parseBtcAmount s with
    | .ok u =>
      match parseUtxoList validAsset validValue parseBtcAmount rest with
      | .ok tl => .ok (u :: tl)
      | .error e => .error e
    | .error e => .error (.inputUtxoParsing e)

/-- The witness-UTXO pass of `simplicity_sighash` over all PSET inputs
(`WitnessUtxoMissing` instead of `MissingWitnessUtxo`). -/
def sighashCollectUtxos {CB PK : Type} : Nat → List (PsetInput CB) →
    Except (SighashError PK) (List ElementsUtxo)
  | _, [] => .ok []
  | n, inp :: rest =>
    match inp.witness_utxo with
    | some u =>
      match sighashCollectUtxos (n + 1) rest with
      | .ok tl => .ok (utxoOfTxOut u :: tl)
      | .error e => .error e
    | none => .error (.witnessUtxoMissing n)

/-- Input-UTXO resolution of `simplicity_sighash`: explicitly supplied
descriptor strings are parsed; otherwise every PSET input's witness UTXO is
converted; with neither source, `InputUtxosRequired`. -/
def resolveInputUtxos {Tx CB PK : Type} (validAsset validValue : Bytes → Bool)
    (parseBtcAmount : List Char → Option Nat)
    (input_utxos : Option (List (List Char))) (pset : Option (Pset Tx CB)) :
    Except (SighashError PK) (List ElementsUtxo) :=
  match input_utxos with
  | some strs => parseUtxoList validAsset validValue parseBtcAmount strs
  | none =>
    match pset with
    | some p => sighashCollectUtxos 0 p.inputs
    | none => .error .inputUtxosRequired

/-- Genesis-hash resolution of `simplicity_sighash`: parse the supplied
string, or fall back to `sighashDefaultGenesisHash`. -/
def sighashResolveGenesis {PK : Type} (genesis_hash : Option (List Char)) :
    Except (SighashError PK) Bytes :=
  match genesis_hash with
  | some s =>
    match parseBlockHash s with
    | some h => .ok h
    | none => .error .genesisHashParsing
  | none => .ok sighashDefaultGenesisHash

/-- `simplicity_sighash` after its string-parsing preamble: resolve the
transaction, control block, input UTXOs (checking their count against the
transaction's input count) and genesis hash, build the environment, screen
the public-key/signature combination, compute the sighash, then optionally
sign (guarding a supplied public key against the one derived from the secret
key) and verify. -/
def simplicitySighash {Tx CB SK PK Sig : Type}
    (txInputLen : Tx → Nat)
    (sighashAll : ElementsEnv Tx CB → Bytes)
    (derivePub : SK → PK)
    (schnorrSign : SK → Bytes → Sig)
    (schnorrVerify : Sig → Bytes → PK → Bool)
    (validAsset validValue : Bytes → Bool)
    (parseBtcAmount : List Char → Option Nat)
    [DecidableEq PK]
    (pset : Option (Pset Tx CB)) (rawTx : Option Tx)
    (input_idx : Nat) (cmr : Bytes)
    (control_block : Option CB)
    (genesis_hash : Option (List Char))
    (secret_key : Option SK) (public_key : Option PK) (signature : Option Sig)
    (input_utxos : Option (List (List Char))) :
    Except (SighashError PK) (SighashInfo Sig) := do
  let tx ← resolveTx pset rawTx
  let cb ← resolveControlBlock control_block pset input_idx cmr
  let utxos ← resolveInputUtxos validAsset validValue parseBtcAmount input_utxos pset
  if utxos.length ≠ txInputLen tx then
    .error (.inputUtxoCountMismatch (txInputLen tx) utxos.length)
  else do
    let gh ← sighashResolveGenesis genesis_hash
    let env : ElementsEnv Tx CB := ⟨tx, utxos, input_idx, cmr, cb, none, gh⟩
    let pksig : Option PK × Option Sig ←
      match public_key, signature with
      | some pk, none => Except.ok (some pk, none)
      | some pk, some sig => Except.ok (some pk, some sig)
      | none, some _ => Except.error SighashError.signatureWithoutPublicKey
      | none, none => Except.ok (none, none)
    let sighash := sighashAll env
    let signatureOut : Option Sig ←
      match secret_key with
      | some sk =>
        match pksig.1 with
        | some pk =>
          if derivePub sk ≠ pk then
            Except.error (SighashError.publicKeyMismatch (derivePub sk) pk)
          else Except.ok (some (schnorrSign sk sighash))
        | none => Except.ok (some (schnorrSign sk sighash))
      | none => Except.ok none
    Except.ok
      ⟨sighash, signatureOut,
        match pksig with
        | (some pk, some sig) => some (schnorrVerify sig sighash pk)
        | _ => none⟩

/-! ### Specification helpers

Auxiliary functions used only to *state* properties (they are not part of the
embedded program). -/

/-- Boolean form of the Simplicity-leaf match condition of the
`tap_scripts` loops. -/
def leafMatchB (cmr : Bytes) {CB : Type} (e : CB × Bytes × Nat) : Bool :=
  decide (e.2.2 = simplicityLeafVersion ∧ e.2.1 = cmr)

/-- Index of the first PSET input without a populated `witness_utxo` field. -/
def firstMissingUtxo {CB : Type} : List (PsetInput CB) → Option Nat
  | [] => none
  | inp :: rest =>
    match inp.witness_utxo with
    | none => some 0
    | some _ => (firstMissingUtxo rest).map (· + 1)

/-- Hex-detection predicate as the claim and the `hex_or_base64` doc comment
state it: the string consists solely of (lowercase) hex digits — which
includes the digits `0`-`9`. -/
def claimedHexDigit (c : Char) : Bool :=
  decide (('0' ≤ c ∧ c ≤ '9') ∨ ('a' ≤ c ∧ c ≤ 'f'))

/-! ### Concrete instantiations of the external-library parameters,
used by the witness theorems. -/

/-- Witness instantiation: a commitment validator that accepts everything. -/
def instValidAll : Bytes → Bool := fun _ => true

/-- Witness instantiation: a BTC-amount parser that never succeeds. -/
def instBtcNone : List Char → Option Nat := fun _ => none

/-- Witness instantiation: a BTC-amount parser accepting only `"1"`
(1 BTC = 100000000 satoshis). -/
def instBtcOne : List Char → Option Nat :=
  fun s => if s = "1".data then some 100000000 else none

/-- Witness instantiation: a base64 decoder that rejects everything. -/
def instBase64Reject : List Char → Except Unit Bytes := fun _ => Except.error ()

/-- Witness instantiation: transaction input count (transactions are `Nat`). -/
def instTxInputLen : Nat → Nat := fun _ => 0

/-- Witness instantiation: a sighash digest over the environment. -/
def instSighashAll : ElementsEnv Nat Nat → Bytes := fun env => env.genesis_hash

/-- Witness instantiation: public-key derivation (keys are `Nat`). -/
def instDerivePub : Nat → Nat := fun sk => sk + 1

/-- Witness instantiation: Schnorr signing. -/
def instSign : Nat → Bytes → Nat := fun _ _ => 0

/-- Witness instantiation: Schnorr verification. -/
def instVerify : Nat → Bytes → Nat → Bool := fun _ _ _ => true

/-- Witness instantiation: pruning that returns fixed program and witness
bytes. -/
def instPrune : Nat → ElementsEnv Nat Nat → Except Unit (Bytes × Bytes) :=
  fun _ _ => Except.ok ([0xaa], [0xbb])

/-- Witness instantiation: control-block serialization. -/
def instCbSerialize : Nat → Bytes := fun cb => [cb]

/-! ### Helper lemmas -/

@[simp]
lemma except_bind_ok {ε α β : Type} (a : α) (f : α → Except ε β) :
    Except.ok a >>= f = f a := rfl

@[simp]
lemma except_bind_error {ε α β : Type} (e : ε) (f : α → Except ε β) :
    (Except.error e : Except ε α) >>= f = Except.error e := rfl

/-- A fold that overwrites its accumulator at every element satisfying `p`
computes the image of the *last* such element of the traversal, i.e. of the
first match in the reversed list. -/
lemma foldl_overwrite {α β : Type} (p : α → Prop) [DecidablePred p] (f : α → β) :
    ∀ (l : List α) (init : Option β),
      l.foldl (fun acc x => if p x then some (f x) else acc) init =
        match l.reverse.find? (fun x => decide (p x)) with
        | some x => some (f x)
        | none => init := by
  intro l
  induction l with
  | nil => intro init; rfl
  | cons a t ih =>
    intro init
    rw [List.foldl_cons, ih, List.reverse_cons, List.find?_append]
    rcases h : t.reverse.find? (fun x => decide (p x)) with _ | x
    · by_cases hp : p a <;> simp [List.find?, hp, Option.or]
    · simp [Option.or]

lemma findSimplicityLeaf_eq_find {CB : Type} (scripts : List (CB × Bytes × Nat)) (cmr : Bytes) :
    findSimplicityLeaf scripts cmr =
      match scripts.reverse.find? (leafMatchB cmr) with
      | some e => some (e.1, e.2.1)
      | none => none := by
  unfold findSimplicityLeaf
  generalize (none : Option (CB × Bytes)) = acc
  induction scripts generalizing acc with
  | nil => rfl
  | cons a t ih =>
    rw [List.foldl_cons, ih, List.reverse_cons, List.find?_append]
    by_cases hp : a.2.2 = simplicityLeafVersion ∧ a.2.1 = cmr <;>
      rcases h : t.reverse.find? (leafMatchB cmr) with _ | x <;>
        simp [h, leafMatchB, hp, Option.or, List.find?_cons, List.find?_nil]

/-- Every leaf script returned by the resolver is the CMR it was asked for. -/
lemma findSimplicityLeaf_leaf_eq {CB : Type} {scripts : List (CB × Bytes × Nat)}
    {cmr : Bytes} {cb : CB} {leaf : Bytes}
    (h : findSimplicityLeaf scripts cmr = some (cb, leaf)) : leaf = cmr := by
  rw [findSimplicityLeaf_eq_find] at h
  rcases hf : scripts.reverse.find? (leafMatchB cmr) with _ | e
  · rw [hf] at h; exact absurd h (by simp)
  · rw [hf] at h
    have hm := List.find?_some hf
    simp only [leafMatchB, decide_eq_true_eq] at hm
    cases h
    exact hm.2

lemma collectInputUtxos_error {CB : Type} (l : List (PsetInput CB)) :
    ∀ (n k : Nat), firstMissingUtxo l = some k →
      collectInputUtxos n l = .error (.missingWitnessUtxo (n + k)) := by
  induction l with
  | nil => intro n k h; exact absurd h (by simp [firstMissingUtxo])
  | cons inp rest ih =>
    intro n k h
    unfold firstMissingUtxo at h
    unfold collectInputUtxos
    rcases hw : inp.witness_utxo with _ | u
    · rw [hw] at h
      cases h
      rfl
    · rw [hw] at h
      simp only [Option.map_eq_some'] at h
      obtain ⟨k', hk', rfl⟩ := h
      rw [ih (n + 1) k' hk']
      simp [Nat.add_assoc, Nat.add_comm 1 k']

lemma collectInputUtxos_ok {CB : Type} (l : List (PsetInput CB)) :
    ∀ (n : Nat), firstMissingUtxo l = none →
      ∃ us, collectInputUtxos n l = .ok us ∧ us.length = l.length ∧
        ∀ (k : Nat) (inp : PsetInput CB) (txo : TxOut),
          l[k]? = some inp → inp.witness_utxo = some txo →
          us[k]? = some (utxoOfTxOut txo) := by
  induction l with
  | nil =>
    intro n _
    exact ⟨[], rfl, rfl, by intro k inp txo h; simp at h⟩
  | cons inp rest ih =>
    intro n h
    unfold firstMissingUtxo at h
    rcases hw : inp.witness_utxo with _ | u
    · rw [hw] at h; cases h
    · rw [hw] at h
      simp only [Option.map_eq_none'] at h
      obtain ⟨tl, htl, hlen, hidx⟩ := ih (n + 1) h
      refine ⟨utxoOfTxOut u :: tl, ?_, by simpa using hlen, ?_⟩
      · unfold collectInputUtxos
        rw [hw, htl]
      · intro k inp' txo hk hwit
        match k with
        | 0 =>
          simp only [List.getElem?_cons_zero, Option.some_inj] at hk
          subst hk
          rw [hwit] at hw
          cases hw
          simp
        | k' + 1 =>
          simp only [List.getElem?_cons_succ] at hk ⊢
          exact hidx k' inp' txo hk hwit

/-- Hex-encoding one word (two characters per byte) has even length. -/
lemma wordHex_length (w : List (Fin 256)) :
    ((w.map byteToHex).flatten).length = 2 * w.length := by
  induction w with
  | nil => rfl
  | cons b t ih =>
    simp only [List.map_cons, List.flatten_cons, List.length_append, ih, byteToHex,
      List.length_cons, List.length_nil]
    omega

lemma wordsToHex_flatten_even (ws : List (List (Fin 256))) :
    ((ws.map (fun w => (w.map byteToHex).flatten)).flatten).length % 2 = 0 := by
  induction ws with
  | nil => rfl
  | cons w t ih =>
    rw [List.map_cons, List.flatten_cons, List.length_append, wordHex_length]
    omega

/-- The tracer's hex encodings always have even length. -/
lemma wordsToHex_length_even (buf : List (List (Fin 256))) :
    (wordsToHex buf).length % 2 = 0 :=
  wordsToHex_flatten_even buf.reverse

lemma parseAssetPart_ok_inv {va : Bytes → Bool} {p : List Char} {a : Asset}
    (h : parseAssetPart va p = .ok a) :
    (p.length = 64 ∧ ∃ bs, hexDecode p = some bs ∧ a = .explicit bs) ∨
    (p.length ≠ 64 ∧ ∃ bs, hexDecode p = some bs ∧ va bs = true ∧ a = .confidential bs) := by
  unfold parseAssetPart at h
  by_cases h64 : p.length = 64
  · rw [if_pos h64] at h
    rcases hd : hexDecode p with _ | bs <;> rw [hd] at h
    · cases h
    · cases h
      exact Or.inl ⟨h64, bs, rfl, rfl⟩
  · rw [if_neg h64] at h
    rcases hd : hexDecode p with _ | bs <;> rw [hd] at h
    · cases h
    · dsimp only at h
      by_cases hv : va bs = true
      · rw [if_pos hv] at h
        cases h
        exact Or.inr ⟨h64, bs, rfl, hv, rfl⟩
      · rw [if_neg hv] at h
        cases h

lemma parseValuePart_ok_inv {vv : Bytes → Bool} {pb : List Char → Option Nat}
    {p : List Char} {v : CValue} (h : parseValuePart vv pb p = .ok v) :
    (∃ sats, pb p = some sats ∧ v = .explicit sats) ∨
    (pb p = none ∧ ∃ bs, hexDecode p = some bs ∧ vv bs = true ∧ v = .confidential bs) := by
  unfold parseValuePart at h
  rcases hp : pb p with _ | sats <;> rw [hp] at h
  · dsimp only at h
    rcases hd : hexDecode p with _ | bs <;> rw [hd] at h
    · cases h
    · dsimp only at h
      by_cases hv : vv bs = true
      · rw [if_pos hv] at h
        cases h
        exact Or.inr ⟨rfl, bs, rfl, hv, rfl⟩
      · rw [if_neg hv] at h
        cases h
  · cases h
    exact Or.inl ⟨sats, rfl, rfl⟩

/-! ### Claim theorems -/

/-- C4: for every PSET and every `input_index` greater than or equal to the
PSET's input count, the environment build fails with `InputIndexOutOfRange`
carrying that index and the total input count, and the finalize operation
built on it leaves the PSET completely unmutated. -/
theorem execution_environment_index_out_of_range {Tx CB R : Type}
    (prune : R → ElementsEnv Tx CB → Except Unit (Bytes × Bytes))
    (cbSerialize : CB → Bytes)
    (pset : Pset Tx CB) (input_idx : Nat) (cmr : Bytes)
    (program : ProgramHandle R) (genesis_hash : Option (List Char))
    (h : pset.inputs.length ≤ input_idx) :
    executionEnvironment pset input_idx cmr genesis_hash =
      .error (.inputIndexOutOfRange input_idx pset.inputs.length) ∧
    psetFinalize prune cbSerialize pset input_idx program genesis_hash =
      (.error (.sharedError (.inputIndexOutOfRange input_idx pset.inputs.length)), pset) := by
  have hidx : pset.inputs[input_idx]? = none := List.getElem?_eq_none h
  constructor
  · unfold executionEnvironment
    rw [hidx]
  · unfold psetFinalize executionEnvironment
    rw [hidx]

/-- C4 witness: a PSET with zero inputs and index 0. -/
theorem execution_environment_index_out_of_range_witness :
    (Pset.mk ([] : List (PsetInput Nat)) (some 5)).inputs.length ≤ 0 ∧
    executionEnvironment (Pset.mk ([] : List (PsetInput Nat)) (some 5)) 0 [0xaa] none =
      .error (.inputIndexOutOfRange 0 0) ∧
    psetFinalize instPrune instCbSerialize (Pset.mk [] (some 5)) 0
        (ProgramHandle.mk [0xaa] (some 0)) none =
      (.error (.sharedError (.inputIndexOutOfRange 0 0)), Pset.mk [] (some 5)) :=
  ⟨by decide,
   (execution_environment_index_out_of_range instPrune instCbSerialize
      (Pset.mk [] (some 5)) 0 [0xaa] (ProgramHandle.mk [0xaa] (some 0)) none (by decide)).1,
   (execution_environment_index_out_of_range instPrune instCbSerialize
      (Pset.mk [] (some 5)) 0 [0xaa] (ProgramHandle.mk [0xaa] (some 0)) none (by decide)).2⟩

/-- C6 (amended): when no genesis hash is supplied, both the environment
build and the sighash computation fall back to the same 32-byte constant
c1 b1 6a e2 4f 24 23 ae a2 ea 34 55 22 92 79 3b 5b 5e 82 99 9a 1e ed 81 d5
6a ee 52 8e da 71 a7; no code path defaults to the Bitcoin mainnet genesis
hash (the sighash path merely mislabels the constant "Bitcoin blockhash" in
a comment). -/
theorem default_genesis_hash_constant :
    resolveGenesis none = .ok defaultGenesisHash ∧
    @sighashResolveGenesis Nat none = .ok sighashDefaultGenesisHash ∧
    defaultGenesisHash =
      [0xc1, 0xb1, 0x6a, 0xe2, 0x4f, 0x24, 0x23, 0xae, 0xa2, 0xea, 0x34, 0x55, 0x22, 0x92,
       0x79, 0x3b, 0x5b, 0x5e, 0x82, 0x99, 0x9a, 0x1e, 0xed, 0x81, 0xd5, 0x6a, 0xee, 0x52,
       0x8e, 0xda, 0x71, 0xa7] ∧
    sighashDefaultGenesisHash = defaultGenesisHash :=
  ⟨rfl, rfl, rfl, rfl⟩

/-- C6 counterexample: neither code path's default genesis constant is the
Bitcoin mainnet genesis hash the claim says "some code path" uses — both
equal the web-IDE constant instead. -/
theorem default_genesis_not_bitcoin :
    defaultGenesisHash ≠ specBitcoinMainnetGenesis ∧
    sighashDefaultGenesisHash ≠ specBitcoinMainnetGenesis ∧
    sighashDefaultGenesisHash = defaultGenesisHash := by
  decide

/-- C10: the code bug at the failing input `"00"`. The string `"00"` has even
length and consists solely of lowercase hex digits (`claimedHexDigit`, the
claim's and the doc comment's criterion), and hex-decoding it yields
`[0x00]`; but the code's guard `hexCandidate` also demands
`is_ascii_lowercase`, which the digits `0`-`9` fail, so `hex_or_base64`
routes `"00"` to the base64 decoder instead. -/
theorem hex_or_base64_digits_code_bug :
    hexCandidate "00".data = false ∧
    "00".data.length % 2 = 0 ∧
    "00".data.all claimedHexDigit = true ∧
    hexDecode "00".data = some [0] ∧
    hexOrBase64 instBase64Reject "00".data = Except.error () :=
  ⟨by decide, by decide, by decide, by decide, by rfl⟩

/-- C7: `parse_elements_utxo` fails with the format error unless splitting on
`:` yields exactly 3 parts; on success the asset part was decoded as an
explicit asset id exactly when it is 64 characters long and otherwise as a
library-validated confidential commitment, and the value part was
interpreted as an explicit decimal BTC amount whenever the decimal parse
(`parseBtcAmount`) succeeded and only otherwise as a hex-decoded,
library-validated confidential value commitment. -/
theorem parse_elements_utxo_branches (validAsset validValue : Bytes → Bool)
    (parseBtcAmount : List Char → Option Nat) (s : List Char) :
    ((splitOnColon s).length ≠ 3 →
      parseElementsUtxo validAsset validValue parseBtcAmount s = .error .invalidFormat) ∧
    (∀ u, parseElementsUtxo validAsset validValue parseBtcAmount s = .ok u →
      ∃ p0 p1 p2 spk, splitOnColon s = [p0, p1, p2] ∧
        hexDecode p0 = some spk ∧ u.script_pubkey = spk ∧
        ((p1.length = 64 ∧ ∃ bs, hexDecode p1 = some bs ∧ u.asset = .explicit bs) ∨
         (p1.length ≠ 64 ∧ ∃ bs, hexDecode p1 = some bs ∧ validAsset bs = true ∧
            u.asset = .confidential bs)) ∧
        ((∃ sats, parseBtcAmount p2 = some sats ∧ u.value = .explicit sats) ∨
         (parseBtcAmount p2 = none ∧ ∃ bs, hexDecode p2 = some bs ∧ validValue bs = true ∧
            u.value = .confidential bs))) := by
  constructor
  · intro hlen
    unfold parseElementsUtxo
    rcases hs : splitOnColon s with _ | ⟨a, _ | ⟨b, _ | ⟨c, _ | ⟨d, t⟩⟩⟩⟩ <;>
      first
        | rfl
        | (exact absurd (by rw [hs]; rfl) hlen)
  · intro u hok
    unfold parseElementsUtxo at hok
    rcases hs : splitOnColon s with _ | ⟨a, _ | ⟨b, _ | ⟨c, _ | ⟨d, t⟩⟩⟩⟩ <;>
      rw [hs] at hok <;> dsimp only at hok <;> try cases hok
    rcases hd : hexDecode a with _ | spk <;> rw [hd] at hok
    · cases hok
    · dsimp only at hok
      rcases ha : parseAssetPart validAsset b with e | av <;> rw [ha] at hok <;>
        simp only [except_bind_error, except_bind_ok] at hok
      · cases hok
      · rcases hv : parseValuePart validValue parseBtcAmount c with e | vv <;> rw [hv] at hok <;>
          simp only [except_bind_error, except_bind_ok] at hok
        · cases hok
        · cases hok
          exact ⟨a, b, c, spk, rfl, hd, rfl, parseAssetPart_ok_inv ha,
            parseValuePart_ok_inv hv⟩

/-- C7 witness: the format gate at a 1-part input, and the success shape at a
concrete 3-part descriptor with an explicit asset and a confidential value. -/
theorem parse_elements_utxo_branches_witness :
    ((splitOnColon "ab".data).length ≠ 3 ∧
      parseElementsUtxo instValidAll instValidAll instBtcNone "ab".data =
        .error .invalidFormat) ∧
    (parseElementsUtxo instValidAll instValidAll instBtcNone
        "ab:aaaaaaaaaaaaaaaaaaaaaaaaaaaaaaaaaaaaaaaaaaaaaaaaaaaaaaaaaaaaaaaa:cc".data =
        .ok ⟨[0xab], .explicit (List.replicate 32 0xaa), .confidential [0xcc]⟩ ∧
      ∃ p0 p1 p2 spk,
        splitOnColon
          "ab:aaaaaaaaaaaaaaaaaaaaaaaaaaaaaaaaaaaaaaaaaaaaaaaaaaaaaaaaaaaaaaaa:cc".data =
          [p0, p1, p2] ∧
        hexDecode p0 = some spk ∧
        (⟨[0xab], .explicit (List.replicate 32 0xaa),
            .confidential [0xcc]⟩ : ElementsUtxo).script_pubkey = spk ∧
        ((p1.length = 64 ∧ ∃ bs, hexDecode p1 = some bs ∧
            (⟨[0xab], .explicit (List.replicate 32 0xaa),
              .confidential [0xcc]⟩ : ElementsUtxo).asset = .explicit bs) ∨
         (p1.length ≠ 64 ∧ ∃ bs, hexDecode p1 = some bs ∧ instValidAll bs = true ∧
            (⟨[0xab], .explicit (List.replicate 32 0xaa),
              .confidential [0xcc]⟩ : ElementsUtxo).asset = .confidential bs)) ∧
        ((∃ sats, instBtcNone p2 = some sats ∧
            (⟨[0xab], .explicit (List.replicate 32 0xaa),
              .confidential [0xcc]⟩ : ElementsUtxo).value = .explicit sats) ∨
         (instBtcNone p2 = none ∧ ∃ bs, hexDecode p2 = some bs ∧ instValidAll bs = true ∧
            (⟨[0xab], .explicit (List.replicate 32 0xaa),
              .confidential [0xcc]⟩ : ElementsUtxo).value = .confidential bs))) :=
  ⟨⟨by decide,
    (parse_elements_utxo_branches instValidAll instValidAll instBtcNone "ab".data).1
      (by decide)⟩,
   by decide,
   (parse_elements_utxo_branches instValidAll instValidAll instBtcNone
      "ab:aaaaaaaaaaaaaaaaaaaaaaaaaaaaaaaaaaaaaaaaaaaaaaaaaaaaaaaaaaaaaaaa:cc".data).2
     ⟨[0xab], .explicit (List.replicate 32 0xaa), .confidential [0xcc]⟩ (by decide)⟩

/-- C9: for every traced jet call whose jet name begins with `eq_` and is
neither `eq_1` nor `eq_2`, the record's `equality_check` is
`some (left, right)` where `left` and `right` are the first and second
halves of the input hex encoding, each exactly half its length; for `eq_1`,
`eq_2` and all other names, it is `none`. -/
theorem jet_call_equality_operands (name source_ty target_ty : List Char)
    (input_buffer output_buffer : List (List (Fin 256))) (success : Bool) :
    (("eq_".data.isPrefixOf name) = true → name ≠ "eq_1".data → name ≠ "eq_2".data →
      (mkJetCall name source_ty target_ty input_buffer output_buffer success).input_hex =
        wordsToHex input_buffer ∧
      (mkJetCall name source_ty target_ty input_buffer output_buffer success).equality_check =
        some ((wordsToHex input_buffer).take ((wordsToHex input_buffer).length / 2),
              (wordsToHex input_buffer).drop ((wordsToHex input_buffer).length / 2)) ∧
      ((wordsToHex input_buffer).take ((wordsToHex input_buffer).length / 2)).length =
        (wordsToHex input_buffer).length / 2 ∧
      ((wordsToHex input_buffer).drop ((wordsToHex input_buffer).length / 2)).length =
        (wordsToHex input_buffer).length / 2 ∧
      (wordsToHex input_buffer).take ((wordsToHex input_buffer).length / 2) ++
          (wordsToHex input_buffer).drop ((wordsToHex input_buffer).length / 2) =
        wordsToHex input_buffer) ∧
    ((name = "eq_1".data ∨ name = "eq_2".data ∨ ("eq_".data.isPrefixOf name) = false) →
      (mkJetCall name source_ty target_ty input_buffer output_buffer success).equality_check =
        none) := by
  have heven := wordsToHex_length_even input_buffer
  constructor
  · intro hpre h1 h2
    refine ⟨rfl, ?_, ?_, ?_, List.take_append_drop _ _⟩
    · unfold mkJetCall
      dsimp only
      rw [if_neg h1, if_neg h2, if_pos hpre]
    · rw [List.length_take]
      exact Nat.min_eq_left (Nat.div_le_self _ _)
    · rw [List.length_drop]
      omega
  · intro hcase
    unfold mkJetCall
    dsimp only
    rcases hcase with h | h | h
    · rw [if_pos h]
    · by_cases h1 : name = "eq_1".data
      · rw [if_pos h1]
      · rw [if_neg h1, if_pos h]
    · by_cases h1 : name = "eq_1".data
      · rw [if_pos h1]
      · rw [if_neg h1]
        by_cases h2 : name = "eq_2".data
        · rw [if_pos h2]
        · rw [if_neg h2, if_neg (by simp [h])]

/-- C9 witness: the jet `eq_32` over a one-word, four-byte input buffer, and
the jet `sha_256_ctx_8_add_1` (no `eq_` prefix) as the `none` case. -/
theorem jet_call_equality_operands_witness :
    (("eq_".data.isPrefixOf "eq_32".data) = true ∧
      (mkJetCall "eq_32".data "s".data "t".data [[0x01, 0x02, 0x03, 0x04]] [[0x01]]
          true).equality_check =
        some ("0102".data, "0304".data)) ∧
    (mkJetCall "sha_256_ctx_8_add_1".data "s".data "t".data [[0x01, 0x02]] [[0x01]]
        true).equality_check = none :=
  ⟨⟨by decide,
    by
      have h := (jet_call_equality_operands "eq_32".data "s".data "t".data
        [[0x01, 0x02, 0x03, 0x04]] [[0x01]] true).1 (by decide) (by decide) (by decide)
      rw [h.2.1]
      decide⟩,
   (jet_call_equality_operands "sha_256_ctx_8_add_1".data "s".data "t".data
      [[0x01, 0x02]] [[0x01]] true).2 (Or.inr (Or.inr (by decide)))⟩

/-- C2: over the canonically ordered iteration of a PSET input's Taproot
script set, the resolver returns the last entry whose leaf version is the
Simplicity constant and whose leaf script equals the CMR (last-write-wins:
the first match of the reversed sequence); when no entry matches, the
environment build fails with `MissingSimplicityLeaf` naming that CMR. -/
theorem execution_environment_leaf_resolution {Tx CB : Type}
    (pset : Pset Tx CB) (input_idx : Nat) (input : PsetInput CB)
    (hin : pset.inputs[input_idx]? = some input)
    (cmr : Bytes) (genesis_hash : Option (List Char)) (g : Bytes)
    (hg : resolveGenesis genesis_hash = .ok g) :
    (∀ e, input.tap_scripts.reverse.find? (leafMatchB cmr) = some e →
      findSimplicityLeaf input.tap_scripts cmr = some (e.1, e.2.1) ∧
      e.2.2 = simplicityLeafVersion ∧ e.2.1 = cmr ∧ e ∈ input.tap_scripts) ∧
    (input.tap_scripts.reverse.find? (leafMatchB cmr) = none →
      executionEnvironment pset input_idx cmr genesis_hash =
        .error (.missingSimplicityLeaf cmr)) := by
  constructor
  · intro e he
    have hm := List.find?_some he
    simp only [leafMatchB, decide_eq_true_eq] at hm
    have hmem : e ∈ input.tap_scripts := by
      have := List.mem_of_find?_eq_some he
      exact List.mem_reverse.mp this
    rw [findSimplicityLeaf_eq_find, he]
    exact ⟨rfl, hm.1, hm.2, hmem⟩
  · intro he
    unfold executionEnvironment
    rw [hin]
    dsimp only
    rw [hg]
    simp only [except_bind_ok]
    rw [findSimplicityLeaf_eq_find, he]

/-- C2 witness: a script set with two matching entries resolves to the later
one (last-write-wins), and a script set without a match fails the build with
`MissingSimplicityLeaf`. -/
theorem execution_environment_leaf_resolution_witness :
    (findSimplicityLeaf [(1, [0xaa], 0xbe), (2, [0xaa], 0xbe), (3, [0xbb], 0xbe)] [0xaa] =
      some ((2 : Nat), [0xaa]) ∧
      (2, ([0xaa] : Bytes), (0xbe : Nat)) ∈
        [(1, [0xaa], 0xbe), (2, [0xaa], 0xbe), (3, [0xbb], 0xbe)]) ∧
    executionEnvironment
        (Pset.mk [PsetInput.mk [(1, [0xbb], 0xbe)] none none] (some 0) : Pset Nat Nat)
        0 [0xaa] none =
      .error (.missingSimplicityLeaf [0xaa]) :=
  ⟨(by
      have h := (execution_environment_leaf_resolution
        (Pset.mk [PsetInput.mk [(1, [0xaa], 0xbe), (2, [0xaa], 0xbe), (3, [0xbb], 0xbe)]
          none none] (some 0) : Pset Nat Nat)
        0 (PsetInput.mk [(1, [0xaa], 0xbe), (2, [0xaa], 0xbe), (3, [0xbb], 0xbe)] none none)
        (by decide) [0xaa] none defaultGenesisHash rfl).1
        (2, [0xaa], 0xbe) (by decide)
      exact ⟨h.1, h.2.2.2⟩),
   (execution_environment_leaf_resolution
      (Pset.mk [PsetInput.mk [(1, [0xbb], 0xbe)] none none] (some 0) : Pset Nat Nat)
      0 (PsetInput.mk [(1, [0xbb], 0xbe)] none none)
      (by decide) [0xaa] none defaultGenesisHash rfl).2 (by decide)⟩

/-- C5: with the target input present, the genesis hash resolved and the
Simplicity leaf found, a PSET in which some input (any input, not only the
target) lacks a populated witness-UTXO field fails the build with
`MissingWitnessUtxo` at the first such index; when every input has one, the
build succeeds and the environment carries one UTXO descriptor per PSET
input, in input order. -/
theorem execution_environment_witness_utxos {Tx CB : Type}
    (pset : Pset Tx CB) (input_idx : Nat) (input : PsetInput CB)
    (hin : pset.inputs[input_idx]? = some input)
    (cmr : Bytes) (genesis_hash : Option (List Char)) (g : Bytes)
    (hg : resolveGenesis genesis_hash = .ok g)
    (cb : CB) (leaf : Bytes)
    (hleaf : findSimplicityLeaf input.tap_scripts cmr = some (cb, leaf))
    (tx : Tx) (hx : pset.extract_tx = some tx) :
    (∀ k, firstMissingUtxo pset.inputs = some k →
      executionEnvironment pset input_idx cmr genesis_hash =
        .error (.missingWitnessUtxo k)) ∧
    (firstMissingUtxo pset.inputs = none →
      ∃ us, executionEnvironment pset input_idx cmr genesis_hash =
          .ok (⟨tx, us, input_idx, cmr, cb, none, g⟩, cb, leaf) ∧
        us.length = pset.inputs.length ∧
        ∀ (k : Nat) (inp : PsetInput CB) (txo : TxOut),
          pset.inputs[k]? = some inp → inp.witness_utxo = some txo →
          us[k]? = some (utxoOfTxOut txo)) := by
  have hpre : executionEnvironment pset input_idx cmr genesis_hash =
      (do
        let input_utxos ← @collectInputUtxos CB 0 pset.inputs
        .ok (⟨tx, input_utxos, input_idx, cmr, cb, none, g⟩, cb, leaf)) := by
    unfold executionEnvironment
    rw [hin]
    dsimp only
    rw [hg]
    simp only [except_bind_ok]
    rw [hleaf]
    dsimp only
    rw [hx]
  constructor
  · intro k hk
    have hc := collectInputUtxos_error pset.inputs 0 k hk
    rw [Nat.zero_add] at hc
    rw [hpre, hc]
    rfl
  · intro h
    obtain ⟨us, hus, hlen, hidx⟩ := collectInputUtxos_ok pset.inputs 0 h
    refine ⟨us, ?_, hlen, hidx⟩
    rw [hpre, hus]
    rfl

/-- C5 witness: a two-input PSET whose second input lacks a witness UTXO
fails with `MissingWitnessUtxo 1`; with both populated, the build succeeds
with one descriptor per input in input order. -/
theorem execution_environment_witness_utxos_witness :
    executionEnvironment
        (Pset.mk [PsetInput.mk [(7, [0xaa], 0xbe)] (some (TxOut.mk [0x51] (.explicit [1])
            (.explicit 5))) none,
          PsetInput.mk [] none none] (some 3) : Pset Nat Nat)
        0 [0xaa] none =
      .error (.missingWitnessUtxo 1) ∧
    ∃ us, executionEnvironment
        (Pset.mk [PsetInput.mk [(7, [0xaa], 0xbe)] (some (TxOut.mk [0x51] (.explicit [1])
            (.explicit 5))) none,
          PsetInput.mk [] (some (TxOut.mk [0x52] (.explicit [2]) (.explicit 6))) none]
          (some 3) : Pset Nat Nat)
        0 [0xaa] none =
        .ok (⟨3, us, 0, [0xaa], 7, none, defaultGenesisHash⟩, 7, [0xaa]) ∧
      us.length = 2 ∧
      us[0]? = some (utxoOfTxOut (TxOut.mk [0x51] (.explicit [1]) (.explicit 5))) ∧
      us[1]? = some (utxoOfTxOut (TxOut.mk [0x52] (.explicit [2]) (.explicit 6))) :=
  ⟨(execution_environment_witness_utxos
      (Pset.mk [PsetInput.mk [(7, [0xaa], 0xbe)] (some (TxOut.mk [0x51] (.explicit [1])
          (.explicit 5))) none,
        PsetInput.mk [] none none] (some 3) : Pset Nat Nat)
      0 (PsetInput.mk [(7, [0xaa], 0xbe)] (some (TxOut.mk [0x51] (.explicit [1])
          (.explicit 5))) none)
      (by decide) [0xaa] none defaultGenesisHash rfl 7 [0xaa] (by decide) 3 rfl).1
    1 (by decide),
   by
    obtain ⟨us, hus, hlen, hidx⟩ := (execution_environment_witness_utxos
      (Pset.mk [PsetInput.mk [(7, [0xaa], 0xbe)] (some (TxOut.mk [0x51] (.explicit [1])
          (.explicit 5))) none,
        PsetInput.mk [] (some (TxOut.mk [0x52] (.explicit [2]) (.explicit 6))) none]
        (some 3) : Pset Nat Nat)
      0 (PsetInput.mk [(7, [0xaa], 0xbe)] (some (TxOut.mk [0x51] (.explicit [1])
          (.explicit 5))) none)
      (by decide) [0xaa] none defaultGenesisHash rfl 7 [0xaa] (by decide) 3 rfl).2 (by decide)
    exact ⟨us, hus, by simpa using hlen,
      hidx 0 (PsetInput.mk [(7, [0xaa], 0xbe)] (some (TxOut.mk [0x51] (.explicit [1])
        (.explicit 5))) none) (TxOut.mk [0x51] (.explicit [1]) (.explicit 5))
        (by decide) rfl,
      hidx 1 (PsetInput.mk [] (some (TxOut.mk [0x52] (.explicit [2]) (.explicit 6))) none)
        (TxOut.mk [0x52] (.explicit [2]) (.explicit 6)) (by decide) rfl⟩⟩

/-- A successful environment build found its leaf via the resolver; in
particular the returned leaf script is the requested CMR. -/
lemma executionEnvironment_ok_inv {Tx CB : Type} {pset : Pset Tx CB} {input_idx : Nat}
    {cmr : Bytes} {genesis_hash : Option (List Char)} {env : ElementsEnv Tx CB}
    {cb : CB} {leaf : Bytes}
    (h : executionEnvironment pset input_idx cmr genesis_hash = .ok (env, cb, leaf)) :
    ∃ input, pset.inputs[input_idx]? = some input ∧
      findSimplicityLeaf input.tap_scripts cmr = some (cb, leaf) := by
  unfold executionEnvironment at h
  rcases hin : pset.inputs[input_idx]? with _ | input <;> rw [hin] at h <;> dsimp only at h
  · cases h
  · rcases hg : resolveGenesis genesis_hash with e | g <;> rw [hg] at h <;>
      simp only [except_bind_ok, except_bind_error] at h
    · cases h
    · rcases hf : findSimplicityLeaf input.tap_scripts cmr with _ | ⟨cb', leaf'⟩ <;>
        rw [hf] at h <;> dsimp only at h
      · cases h
      · rcases hx : pset.extract_tx with _ | tx <;> rw [hx] at h <;> dsimp only at h
        · cases h
        · rcases hc : @collectInputUtxos CB 0 pset.inputs with e | us <;>
            rw [hc] at h <;> simp only [except_bind_ok, except_bind_error] at h
          · cases h
          · cases h
            exact ⟨input, rfl, hf⟩

/-- C3: a finalize call on a program with a redeem form that succeeds writes
exactly the 4-element stack `[witness, program, leaf script, control block]`
— the leaf script being the program's CMR — into the target input's
final-script-witness field, and reports `final_script_witness` as the
touched field; a program without a redeem form fails with `NoRedeemNode`. -/
theorem pset_finalize_witness_stack {Tx CB R : Type}
    (prune : R → ElementsEnv Tx CB → Except Unit (Bytes × Bytes))
    (cbSerialize : CB → Bytes)
    (pset : Pset Tx CB) (input_idx : Nat) (program : ProgramHandle R)
    (genesis_hash : Option (List Char))
    (env : ElementsEnv Tx CB) (cb : CB) (leaf : Bytes)
    (henv : executionEnvironment pset input_idx program.cmr genesis_hash =
      .ok (env, cb, leaf)) :
    (∀ (rn : R) (progBytes witBytes : Bytes), program.redeem = some rn →
      prune rn env = .ok (progBytes, witBytes) →
      psetFinalize prune cbSerialize pset input_idx program genesis_hash =
        (.ok ["final_script_witness"],
          pset.setFinalWitness input_idx
            [witBytes, progBytes, leaf, cbSerialize cb]) ∧
      leaf = program.cmr ∧
      ∀ inp, pset.inputs[input_idx]? = some inp →
        (pset.setFinalWitness input_idx
            [witBytes, progBytes, leaf, cbSerialize cb]).inputs[input_idx]? =
          some { inp with
            final_script_witness := some [witBytes, progBytes, leaf, cbSerialize cb] }) ∧
    (program.redeem = none →
      psetFinalize prune cbSerialize pset input_idx program genesis_hash =
        (.error .noRedeemNode, pset)) := by
  have hleaf : leaf = program.cmr := by
    obtain ⟨input, _, hf⟩ := executionEnvironment_ok_inv henv
    exact findSimplicityLeaf_leaf_eq hf
  constructor
  · intro rn progBytes witBytes hrn hprune
    refine ⟨?_, hleaf, ?_⟩
    · unfold psetFinalize
      rw [henv]
      dsimp only
      rw [hrn]
      dsimp only
      rw [hprune]
    · intro inp hinp
      unfold Pset.setFinalWitness
      simp [List.getElem?_modify, hinp]
  · intro hrn
    unfold psetFinalize
    rw [henv]
    dsimp only
    rw [hrn]

/-- C3 witness: a one-input PSET whose script set carries the program's CMR
and whose input has a witness UTXO; finalize writes the 4-element stack and
reports `final_script_witness`, and the same program stripped of its redeem
form fails with `NoRedeemNode`. -/
theorem pset_finalize_witness_stack_witness :
    (psetFinalize instPrune instCbSerialize
        (Pset.mk [PsetInput.mk [(7, [0xcd], 0xbe)]
            (some (TxOut.mk [0x51] (.explicit [1]) (.explicit 5))) none]
          (some 3) : Pset Nat Nat)
        0 (ProgramHandle.mk [0xcd] (some 4)) none =
      (.ok ["final_script_witness"],
        (Pset.mk [PsetInput.mk [(7, [0xcd], 0xbe)]
            (some (TxOut.mk [0x51] (.explicit [1]) (.explicit 5))) none]
          (some 3)).setFinalWitness 0
          [[0xbb], [0xaa], [0xcd], instCbSerialize 7]) ∧
      ((Pset.mk [PsetInput.mk [(7, [0xcd], 0xbe)]
            (some (TxOut.mk [0x51] (.explicit [1]) (.explicit 5))) none]
          (some 3) : Pset Nat Nat).setFinalWitness 0
          [[0xbb], [0xaa], [0xcd], instCbSerialize 7]).inputs[0]? =
        some (PsetInput.mk [(7, [0xcd], 0xbe)]
          (some (TxOut.mk [0x51] (.explicit [1]) (.explicit 5)))
          (some [[0xbb], [0xaa], [0xcd], instCbSerialize 7]))) ∧
    psetFinalize instPrune instCbSerialize
        (Pset.mk [PsetInput.mk [(7, [0xcd], 0xbe)]
            (some (TxOut.mk [0x51] (.explicit [1]) (.explicit 5))) none]
          (some 3) : Pset Nat Nat)
        0 (ProgramHandle.mk [0xcd] none) none =
      (.error .noRedeemNode,
        Pset.mk [PsetInput.mk [(7, [0xcd], 0xbe)]
          (some (TxOut.mk [0x51] (.explicit [1]) (.explicit 5))) none] (some 3)) := by
  refine ⟨?_, ?_⟩
  · have h := (pset_finalize_witness_stack instPrune instCbSerialize
      (Pset.mk [PsetInput.mk [(7, [0xcd], 0xbe)]
          (some (TxOut.mk [0x51] (.explicit [1]) (.explicit 5))) none]
        (some 3) : Pset Nat Nat)
      0 (ProgramHandle.mk [0xcd] (some 4)) none
      ⟨3, [utxoOfTxOut (TxOut.mk [0x51] (.explicit [1]) (.explicit 5))], 0, [0xcd], 7,
        none, defaultGenesisHash⟩ 7 [0xcd] (by decide)).1
      4 [0xaa] [0xbb] rfl rfl
    exact ⟨h.1, h.2.2 (PsetInput.mk [(7, [0xcd], 0xbe)]
      (some (TxOut.mk [0x51] (.explicit [1]) (.explicit 5))) none) (by decide)⟩
  · exact (pset_finalize_witness_stack instPrune instCbSerialize
      (Pset.mk [PsetInput.mk [(7, [0xcd], 0xbe)]
          (some (TxOut.mk [0x51] (.explicit [1]) (.explicit 5))) none]
        (some 3) : Pset Nat Nat)
      0 (ProgramHandle.mk [0xcd] none) none
      ⟨3, [utxoOfTxOut (TxOut.mk [0x51] (.explicit [1]) (.explicit 5))], 0, [0xcd], 7,
        none, defaultGenesisHash⟩ 7 [0xcd] (by decide)).2 rfl

/-- C1: a sighash call that supplies both a secret key and an explicit
public key differing from the derived one never returns a result (so it
never produces a signature), and whenever every earlier resolution stage
succeeds it fails precisely with `PublicKeyMismatch` carrying the derived
and provided keys. -/
theorem sighash_public_key_mismatch {Tx CB SK PK Sig : Type}
    (txInputLen : Tx → Nat) (sighashAll : ElementsEnv Tx CB → Bytes)
    (derivePub : SK → PK) (schnorrSign : SK → Bytes → Sig)
    (schnorrVerify : Sig → Bytes → PK → Bool)
    (validAsset validValue : Bytes → Bool) (parseBtcAmount : List Char → Option Nat)
    [DecidableEq PK]
    (pset : Option (Pset Tx CB)) (rawTx : Option Tx) (input_idx : Nat) (cmr : Bytes)
    (control_block : Option CB) (genesis_hash : Option (List Char))
    (sk : SK) (pk : PK) (signature : Option Sig) (input_utxos : Option (List (List Char)))
    (hne : derivePub sk ≠ pk) :
    (∀ (tx : Tx) (cb : CB) (utxos : List ElementsUtxo) (g : Bytes),
      @resolveTx Tx CB PK pset rawTx = .ok tx →
      @resolveControlBlock Tx CB PK control_block pset input_idx cmr = .ok cb →
      @resolveInputUtxos Tx CB PK validAsset validValue parseBtcAmount input_utxos pset =
        .ok utxos →
      utxos.length = txInputLen tx →
      @sighashResolveGenesis PK genesis_hash = .ok g →
      simplicitySighash txInputLen sighashAll derivePub schnorrSign schnorrVerify
        validAsset validValue parseBtcAmount pset rawTx input_idx cmr control_block
        genesis_hash (some sk) (some pk) signature input_utxos =
        .error (.publicKeyMismatch (derivePub sk) pk)) ∧
    (∀ info, simplicitySighash txInputLen sighashAll derivePub schnorrSign schnorrVerify
        validAsset validValue parseBtcAmount pset rawTx input_idx cmr control_block
        genesis_hash (some sk) (some pk) signature input_utxos ≠ .ok info) := by
  constructor
  · intro tx cb utxos g h1 h2 h3 h4 h5
    unfold simplicitySighash
    rw [h1]
    simp only [except_bind_ok]
    rw [h2]
    simp only [except_bind_ok]
    rw [h3]
    simp only [except_bind_ok]
    rw [if_neg (fun hcon => hcon h4)]
    rw [h5]
    simp only [except_bind_ok]
    rcases signature with _ | sig <;>
      simp only [except_bind_ok] <;>
        rw [if_pos hne] <;>
          rfl
  · intro info hok
    unfold simplicitySighash at hok
    rcases h1 : @resolveTx Tx CB PK pset rawTx with e | tx <;> rw [h1] at hok <;>
      simp only [except_bind_error, except_bind_ok] at hok
    · cases hok
    rcases h2 : @resolveControlBlock Tx CB PK control_block pset input_idx cmr with e | cb <;>
      rw [h2] at hok <;> simp only [except_bind_error, except_bind_ok] at hok
    · cases hok
    rcases h3 : @resolveInputUtxos Tx CB PK validAsset validValue parseBtcAmount
        input_utxos pset with e | utxos <;>
      rw [h3] at hok <;> simp only [except_bind_error, except_bind_ok] at hok
    · cases hok
    by_cases hlen : utxos.length ≠ txInputLen tx
    · rw [if_pos hlen] at hok
      cases hok
    · rw [if_neg hlen] at hok
      rcases h5 : @sighashResolveGenesis PK genesis_hash with e | g <;> rw [h5] at hok <;>
        simp only [except_bind_error, except_bind_ok] at hok
      · cases hok
      rcases signature with _ | sig <;>
        simp only [except_bind_error, except_bind_ok] at hok <;>
          rw [if_pos hne] at hok <;>
            cases hok

/-- C1 witness: keys are naturals, derivation adds one; supplying secret key
0 with public key 7 fails with `PublicKeyMismatch 1 7` and never returns a
signature result. -/
theorem sighash_public_key_mismatch_witness :
    instDerivePub 0 ≠ 7 ∧
    simplicitySighash instTxInputLen instSighashAll instDerivePub instSign instVerify
        instValidAll instValidAll instBtcNone (none : Option (Pset Nat Nat)) (some 3)
        0 [0xcd] (some 9) none (some 0) (some 7) (none : Option Nat) (some []) =
      .error (.publicKeyMismatch (instDerivePub 0) 7) ∧
    simplicitySighash instTxInputLen instSighashAll instDerivePub instSign instVerify
        instValidAll instValidAll instBtcNone (none : Option (Pset Nat Nat)) (some 3)
        0 [0xcd] (some 9) none (some 0) (some 7) (none : Option Nat) (some []) ≠
      .ok ⟨[0], none, none⟩ :=
  ⟨by decide,
   (sighash_public_key_mismatch instTxInputLen instSighashAll instDerivePub instSign
      instVerify instValidAll instValidAll instBtcNone (none : Option (Pset Nat Nat))
      (some 3) 0 [0xcd] (some 9) none 0 7 (none : Option Nat) (some [])
      (by decide)).1 3 9 [] sighashDefaultGenesisHash rfl rfl rfl rfl rfl,
   (sighash_public_key_mismatch instTxInputLen instSighashAll instDerivePub instSign
      instVerify instValidAll instValidAll instBtcNone (none : Option (Pset Nat Nat))
      (some 3) 0 [0xcd] (some 9) none 0 7 (none : Option Nat) (some [])
      (by decide)).2 ⟨[0], none, none⟩⟩

/-- C8: two sighash calls with identical transaction, input index, CMR,
control block and genesis hash, whose resolved input-UTXO lists agree — one
resolved from explicitly supplied descriptor strings, the other derived from
the PSET's witness-UTXO fields — are equal as computations; in particular
they produce byte-identical sighash values. -/
theorem sighash_deterministic_utxo_sources {Tx CB SK PK Sig : Type}
    (txInputLen : Tx → Nat) (sighashAll : ElementsEnv Tx CB → Bytes)
    (derivePub : SK → PK) (schnorrSign : SK → Bytes → Sig)
    (schnorrVerify : Sig → Bytes → PK → Bool)
    (validAsset validValue : Bytes → Bool) (parseBtcAmount : List Char → Option Nat)
    [DecidableEq PK]
    (p : Pset Tx CB) (rawTx : Option Tx) (input_idx : Nat) (cmr : Bytes)
    (control_block : Option CB) (genesis_hash : Option (List Char))
    (strs : List (List Char)) (us : List ElementsUtxo)
    (hA : @resolveInputUtxos Tx CB PK validAsset validValue parseBtcAmount
      (some strs) (some p) = .ok us)
    (hB : @resolveInputUtxos Tx CB PK validAsset validValue parseBtcAmount
      none (some p) = .ok us) :
    simplicitySighash txInputLen sighashAll derivePub schnorrSign schnorrVerify
      validAsset validValue parseBtcAmount (some p) rawTx input_idx cmr control_block
      genesis_hash none none none (some strs) =
    simplicitySighash txInputLen sighashAll derivePub schnorrSign schnorrVerify
      validAsset validValue parseBtcAmount (some p) rawTx input_idx cmr control_block
      genesis_hash none none none none ∧
    ∀ a b,
      simplicitySighash txInputLen sighashAll derivePub schnorrSign schnorrVerify
        validAsset validValue parseBtcAmount (some p) rawTx input_idx cmr control_block
        genesis_hash none none none (some strs) = .ok a →
      simplicitySighash txInputLen sighashAll derivePub schnorrSign schnorrVerify
        validAsset validValue parseBtcAmount (some p) rawTx input_idx cmr control_block
        genesis_hash none none none none = .ok b →
      a.sighash = b.sighash := by
  have hcalls :
      simplicitySighash txInputLen sighashAll derivePub schnorrSign schnorrVerify
        validAsset validValue parseBtcAmount (some p) rawTx input_idx cmr control_block
        genesis_hash none none none (some strs) =
      simplicitySighash txInputLen sighashAll derivePub schnorrSign schnorrVerify
        validAsset validValue parseBtcAmount (some p) rawTx input_idx cmr control_block
        genesis_hash none none none none := by
    unfold simplicitySighash
    simp only [hA, hB]
  refine ⟨hcalls, ?_⟩
  intro a b ha hb
  rw [hcalls, hb] at ha
  cases ha
  rfl

/-- C8 witness: a PSET whose derived UTXO list and an explicitly supplied
(empty) descriptor list resolve identically; the two calls agree. -/
theorem sighash_deterministic_utxo_sources_witness :
    simplicitySighash instTxInputLen instSighashAll instDerivePub instSign instVerify
        instValidAll instValidAll instBtcNone
        (some (Pset.mk [] (some 0) : Pset Nat Nat)) none 0 [0xcd] (some 9) none
        (none : Option Nat) (none : Option Nat) (none : Option Nat) (some []) =
      simplicitySighash instTxInputLen instSighashAll instDerivePub instSign instVerify
        instValidAll instValidAll instBtcNone
        (some (Pset.mk [] (some 0) : Pset Nat Nat)) none 0 [0xcd] (some 9) none
        (none : Option Nat) (none : Option Nat) (none : Option Nat) none :=
  (sighash_deterministic_utxo_sources instTxInputLen instSighashAll instDerivePub
    instSign instVerify instValidAll instValidAll instBtcNone
    (Pset.mk [] (some 0) : Pset Nat Nat) none 0 [0xcd] (some 9) none [] []
    rfl rfl).1

end HalSimplicity
